import Mathlib

/-!
Shallow embedding of the P2P order aggregation, diffing and arbitrage
matching core of the crypto-p2p-ai repository, together with theorems
checking the specification's claims against it.

Sources embedded here:
* `src/services/binanceP2PService.ts` (class `BinanceP2PService`)
* `src/services/okxP2PService.ts` (class `OkxP2PService`)
* the arbitrage matcher `calculateArbitrageOpportunities` (p2p comparison
  component),
* the depth-chart bucketing pass of `fetchOrderBookData` (market overview
  component),
* the spot-price resolution effect of `order-book-analysis.tsx`
  (`fetchSpotPrice` / `useFallbackPrice`).
-/

namespace CryptoP2P

/-- Result of a JavaScript `parseFloat` call: either `NaN`, one of the two
infinities, or a finite number (modelled as a rational). -/
inductive JsNum where
  | nan : JsNum
  | inf : JsNum
  | negInf : JsNum
  | fin : ℚ → JsNum
deriving DecidableEq

/-- JavaScript `isNaN` on a parse result. -/
def JsNum.isNaN : JsNum → Bool
  | .nan => true
  | _ => false

/-- The claim's notion of a valid numeric field: finite and strictly
positive. -/
def JsNum.isPosFinite : JsNum → Bool
  | .fin q => decide (0 < q)
  | _ => false

/-- One entry of an exchange's `tradeMethods` array.  `none` models a field
that is absent (JavaScript `undefined`) or falsy. -/
structure TradeMethod where
  identifier : Option String
  payType : Option String
deriving DecidableEq

/-- Normalized merchant record, as built by both services.  `name` is
`Option String` because the Binance service copies `advertiser.nickName`
verbatim, which may be absent. -/
structure Merchant where
  name : Option String
  rating : ℚ
  completedTrades : ℚ
  completionRate : ℚ
  lastOnlineTime : ℤ
  userType : String
  userIdentity : String
deriving DecidableEq

/-- Normalized order as produced by the services' `fetchOrders`.  Numeric
fields keep the raw `parseFloat` results (`JsNum`), since only `NaN` is
filtered by the code.  Payment-method entries are `Option String` because the
Binance mapping copies `method.identifier` verbatim even when absent. -/
structure Order where
  advNo : String
  id : String
  price : JsNum
  amount : JsNum
  minAmount : JsNum
  maxAmount : JsNum
  paymentMethods : List (Option String)
  merchant : Merchant
deriving DecidableEq

/-- `Array.prototype.map` with the element index, as used by the services'
response mapping (`.map((item, index) => ...)`). -/
def mapWithIndex (f : ℕ → α → β) : ℕ → List α → List β
  | _, [] => []
  | i, a :: as => f i a :: mapWithIndex f (i + 1) as

namespace Binance

/-- Raw `item.adv` of one Binance offer.  The numeric fields hold the result
of `parseFloat` on the raw strings; `advNo = none` models an absent or falsy
`item.adv.advNo`; `tradeMethods = none` models an absent `tradeMethods`. -/
structure RawAdv where
  advNo : Option String
  price : JsNum
  surplusAmount : JsNum
  minSingleTransAmount : JsNum
  maxSingleTransAmount : JsNum
  tradeMethods : Option (List TradeMethod)
deriving DecidableEq

/-- Raw `item.advertiser` of one Binance offer.  `none` models an absent or
falsy field (the code applies `|| default` to each). -/
structure RawAdvertiser where
  nickName : Option String
  positiveRate : Option ℚ
  monthOrderCount : Option ℤ
  monthFinishRate : Option ℚ
  activeTimeInSecond : Option ℤ
  userType : Option String
  userIdentity : Option String
deriving DecidableEq

/-- One element of `response.data.data`. -/
structure RawItem where
  adv : RawAdv
  advertiser : RawAdvertiser
deriving DecidableEq

/-- The body of the per-item mapping callback in
`BinanceP2PService.fetchOrders`: parses the four numeric fields, returns
`null` (here `none`) when any of them is `NaN`, and otherwise builds the
normalized order.  `nowSec` stands for `Math.floor(Date.now() / 1000)` and
`nowMs` for `Date.now()` in the generated fallback id. -/
def normalizeItem (nowSec nowMs : ℤ) (tradeType : String) (idx : ℕ)
    (item : RawItem) : Option Order :=
  let lastOnlineTime : ℤ :=
    match item.advertiser.activeTimeInSecond with
    | some t => nowSec - t
    | none => 0
  let price := item.adv.price
  let amount := item.adv.surplusAmount
  let minAmount := item.adv.minSingleTransAmount
  let maxAmount := item.adv.maxSingleTransAmount
  if price.isNaN || amount.isNaN || minAmount.isNaN || maxAmount.isNaN then
    none
  else
    let advNo := item.adv.advNo.getD
      ("generated-" ++ tradeType ++ "-" ++ toString idx ++ "-" ++ toString nowMs)
    some
      { advNo := advNo
        id := advNo
        price := price
        amount := amount
        minAmount := minAmount
        maxAmount := maxAmount
        paymentMethods :=
          match item.adv.tradeMethods with
          | some ms => ms.map (·.identifier)
          | none => []
        merchant :=
          { name := item.advertiser.nickName
            rating := item.advertiser.positiveRate.getD 0
            completedTrades := ((item.advertiser.monthOrderCount.getD 0 : ℤ) : ℚ)
            completionRate := item.advertiser.monthFinishRate.getD 0
            lastOnlineTime := lastOnlineTime
            userType := item.advertiser.userType.getD "user"
            userIdentity := item.advertiser.userIdentity.getD "" } }

/-- `BinanceP2PService.fetchOrders` after the HTTP layer: the argument is
`response.data` (`none` = body absent or not an object, `some none` = the
`data` container key absent or falsy, `some (some items)` = the offers
array).  A malformed envelope throws `Invalid API response structure`, which
the surrounding catch rethrows with the same message. -/
def fetchOrders (resp : Option (Option (List RawItem))) (nowSec nowMs : ℤ)
    (tradeType : String) : Except String (List Order) :=
  match resp with
  | none => .error "Invalid API response structure"
  | some none => .error "Invalid API response structure"
  | some (some items) =>
      .ok (mapWithIndex (normalizeItem nowSec nowMs tradeType) 0 items).reduceOption

/-- An item survives the code's validity check iff none of its four numeric
fields parses to `NaN`. -/
def rawNoNaN (item : RawItem) : Bool :=
  !(item.adv.price.isNaN || item.adv.surplusAmount.isNaN ||
    item.adv.minSingleTransAmount.isNaN || item.adv.maxSingleTransAmount.isNaN)

/-- The claim's notion of a valid offer: price and amount are numeric,
finite, and strictly positive. -/
def claimValidOffer (item : RawItem) : Bool :=
  item.adv.price.isPosFinite && item.adv.surplusAmount.isPosFinite

end Binance

namespace Okx

/-- Raw `item.adv` of one OKX offer.  Every field goes through optional
chaining plus a `||` default in the code, so each is optional here; for the
numeric fields `none` models a falsy raw value, which the code replaces with
the string `'0'` before `parseFloat`. -/
structure RawAdv where
  advNo : Option String
  price : Option JsNum
  surplusAmount : Option JsNum
  minSingleTransAmount : Option JsNum
  maxSingleTransAmount : Option JsNum
  tradeMethods : Option (List TradeMethod)
deriving DecidableEq

/-- Raw `item.advertiser` of one OKX offer. -/
structure RawAdvertiser where
  nickName : Option String
  positiveRate : Option ℚ
  monthOrderCount : Option ℤ
  monthFinishRate : Option ℚ
  activeTimeInSecond : Option ℤ
  userType : Option String
  userIdentity : Option String
deriving DecidableEq

/-- One element of `response.data.data`; `item.adv` and `item.advertiser`
may be absent (the code defaults them to `\x7b\x7d`). -/
structure RawItem where
  adv : Option RawAdv
  advertiser : Option RawAdvertiser
deriving DecidableEq

/-- The empty object used for `item.adv || \x7b\x7d`. -/
def emptyAdv : RawAdv := ⟨none, none, none, none, none, none⟩

/-- The empty object used for `item.advertiser || \x7b\x7d`. -/
def emptyAdvertiser : RawAdvertiser := ⟨none, none, none, none, none, none, none⟩

/-- `method.identifier || method.payType || 'Unknown'` of the OKX payment
method extraction. -/
def methodLabel (m : TradeMethod) : String :=
  m.identifier.getD (m.payType.getD "Unknown")

/-- The body of the per-item mapping callback in
`OkxP2PService.fetchOrders`.  `rand idx` stands for the
`Math.random().toString(36).substring(2, 10)` suffix drawn for this item. -/
def normalizeItem (nowSec nowMs : ℤ) (tradeType : String) (rand : ℕ → String)
    (idx : ℕ) (item : RawItem) : Option Order :=
  let advData := item.adv.getD emptyAdv
  let advertiserData := item.advertiser.getD emptyAdvertiser
  let lastOnlineTime : ℤ :=
    match advertiserData.activeTimeInSecond with
    | some t => nowSec - t
    | none => 0
  let price := advData.price.getD (.fin 0)
  let amount := advData.surplusAmount.getD (.fin 0)
  let minAmount := advData.minSingleTransAmount.getD (.fin 0)
  let maxAmount := advData.maxSingleTransAmount.getD (.fin 0)
  if price.isNaN || amount.isNaN || minAmount.isNaN || maxAmount.isNaN then
    none
  else
    let paymentMethods : List (Option String) :=
      match advData.tradeMethods with
      | some ms => ms.map (fun m => some (methodLabel m))
      | none => []
    let advNo := advData.advNo.getD
      ("okx-" ++ tradeType ++ "-" ++ toString nowMs ++ "-" ++ rand idx)
    some
      { advNo := advNo
        id := advNo
        price := price
        amount := amount
        minAmount := minAmount
        maxAmount := maxAmount
        paymentMethods := paymentMethods
        merchant :=
          { name := some (advertiserData.nickName.getD "Unknown")
            rating := advertiserData.positiveRate.getD 0
            completedTrades := ((advertiserData.monthOrderCount.getD 0 : ℤ) : ℚ)
            completionRate := advertiserData.monthFinishRate.getD 0
            lastOnlineTime := lastOnlineTime
            userType := advertiserData.userType.getD "user"
            userIdentity := advertiserData.userIdentity.getD "" } }

/-- `OkxP2PService.fetchOrders` after the HTTP layer, shaped exactly like the
Binance one: a malformed envelope throws `Invalid API response structure`. -/
def fetchOrders (resp : Option (Option (List RawItem))) (nowSec nowMs : ℤ)
    (tradeType : String) (rand : ℕ → String) : Except String (List Order) :=
  match resp with
  | none => .error "Invalid API response structure"
  | some none => .error "Invalid API response structure"
  | some (some items) =>
      .ok (mapWithIndex (normalizeItem nowSec nowMs tradeType rand) 0 items).reduceOption

/-- An OKX item survives the validity check iff none of its four defaulted
numeric fields parses to `NaN` (a falsy raw field defaults to `0`, which is
never `NaN`). -/
def rawNoNaN (item : RawItem) : Bool :=
  let advData := item.adv.getD emptyAdv
  !((advData.price.getD (.fin 0)).isNaN ||
    (advData.surplusAmount.getD (.fin 0)).isNaN ||
    (advData.minSingleTransAmount.getD (.fin 0)).isNaN ||
    (advData.maxSingleTransAmount.getD (.fin 0)).isNaN)

end Okx

/-- Both numeric fields the claim cares about are non-`NaN` on a normalized
order. -/
def orderNumsOk (o : Order) : Bool :=
  !o.price.isNaN && !o.amount.isNaN

lemma length_reduceOption_mapWithIndex {α β : Type _} (f : ℕ → α → Option β)
    (p : α → Bool) (h : ∀ i a, (f i a).isSome = p a) (l : List α) :
    ∀ i : ℕ, ((mapWithIndex f i l).reduceOption).length = l.countP p := by
  induction l with
  | nil => intro i; simp [mapWithIndex, List.countP_nil]
  | cons a as ih =>
    intro i
    have hpa := h i a
    cases hfa : f i a with
    | none =>
      rw [hfa] at hpa
      simp only [mapWithIndex, hfa, List.reduceOption_cons_of_none, List.countP_cons,
        ← hpa, Option.isSome_none, cond_false, Nat.add_zero]
      exact ih (i + 1)
    | some b =>
      rw [hfa] at hpa
      simp only [mapWithIndex, hfa, List.reduceOption_cons_of_some, List.length_cons,
        List.countP_cons, ← hpa, Option.isSome_some, cond_true]
      rw [ih (i + 1)]
      simp [← hpa]

lemma all_reduceOption_mapWithIndex {α β : Type _} (f : ℕ → α → Option β)
    (q : β → Bool) (h : ∀ i a b, f i a = some b → q b = true) (l : List α) :
    ∀ i : ℕ, ((mapWithIndex f i l).reduceOption).all q = true := by
  induction l with
  | nil => intro i; simp [mapWithIndex]
  | cons a as ih =>
    intro i
    cases hfa : f i a with
    | none =>
      simp only [mapWithIndex, hfa, List.reduceOption_cons_of_none]
      exact ih (i + 1)
    | some b =>
      simp only [mapWithIndex, hfa, List.reduceOption_cons_of_some, List.all_cons,
        Bool.and_eq_true]
      exact ⟨h i a b hfa, ih (i + 1)⟩

lemma binance_isSome_normalizeItem (nowSec nowMs : ℤ) (tradeType : String)
    (idx : ℕ) (item : Binance.RawItem) :
    (Binance.normalizeItem nowSec nowMs tradeType idx item).isSome
      = Binance.rawNoNaN item := by
  simp only [Binance.normalizeItem, Binance.rawNoNaN]
  split
  · next hc => simp [hc]
  · next hc => simp [Bool.not_eq_true] at hc; simp [hc]

lemma binance_normalizeItem_numsOk (nowSec nowMs : ℤ) (tradeType : String)
    (idx : ℕ) (item : Binance.RawItem) (o : Order)
    (h : Binance.normalizeItem nowSec nowMs tradeType idx item = some o) :
    orderNumsOk o = true := by
  simp only [Binance.normalizeItem] at h
  split at h
  · exact absurd h (by simp)
  · next hc =>
    obtain rfl := Option.some_injective _ h.symm
    simp only [orderNumsOk]
    revert hc
    cases item.adv.price.isNaN <;> cases item.adv.surplusAmount.isNaN <;> simp

lemma okx_isSome_normalizeItem (nowSec nowMs : ℤ) (tradeType : String)
    (rand : ℕ → String) (idx : ℕ) (item : Okx.RawItem) :
    (Okx.normalizeItem nowSec nowMs tradeType rand idx item).isSome
      = Okx.rawNoNaN item := by
  simp only [Okx.normalizeItem, Okx.rawNoNaN]
  split
  · next hc => simp [hc]
  · next hc => simp [Bool.not_eq_true] at hc; simp [hc]

lemma okx_normalizeItem_numsOk (nowSec nowMs : ℤ) (tradeType : String)
    (rand : ℕ → String) (idx : ℕ) (item : Okx.RawItem) (o : Order)
    (h : Okx.normalizeItem nowSec nowMs tradeType rand idx item = some o) :
    orderNumsOk o = true := by
  simp only [Okx.normalizeItem] at h
  split at h
  · exact absurd h (by simp)
  · next hc =>
    obtain rfl := Option.some_injective _ h.symm
    simp only [orderNumsOk]
    revert hc
    cases ((item.adv.getD Okx.emptyAdv).price.getD (JsNum.fin 0)).isNaN <;>
      cases ((item.adv.getD Okx.emptyAdv).surplusAmount.getD (JsNum.fin 0)).isNaN <;> simp

/-- A plausible advertiser record reused by the concrete inputs below. -/
def sampleAdvertiser : Binance.RawAdvertiser :=
  ⟨some "m", some 1, some 100, some 1, none, none, none⟩

/-- A Binance raw item whose price parses to `0`: numeric (not `NaN`) but not
strictly positive. -/
def c1Item : Binance.RawItem :=
  ⟨⟨some "A1", .fin 0, .fin 1, .fin 1, .fin 1, none⟩, sampleAdvertiser⟩

/-- C1: the claim states that offers with non-positive (or non-finite)
price/amount are excluded and that the output length equals the number of
valid offers.  On an offer whose price parses to `0` the Binance normalizer
emits the offer anyway (only `NaN` is filtered): the output has length 1
while the claim counts 0 valid offers. -/
theorem c1_counterexample :
    ((Binance.fetchOrders (some (some [c1Item])) 0 0 "BUY").toOption.getD []).length = 1 ∧
    [c1Item].countP Binance.claimValidOffer = 0 := by
  exact ⟨rfl, rfl⟩

/-- C1 (amended): the normalizer excludes exactly the offers for which any of
the four numeric fields (`price`, `surplusAmount`, `minSingleTransAmount`,
`maxSingleTransAmount`) parses to `NaN`; the output length equals the count
of offers with no `NaN` among those fields, and no emitted order carries a
`NaN` price or amount.  Offers whose price or amount is non-finite or `≤ 0`
are emitted as parsed (OKX substitutes `0` for falsy raw numeric fields). -/
theorem c1_normalizer_filters_nan (nowSec nowMs : ℤ) (tradeType : String)
    (rand : ℕ → String) (itemsB : List Binance.RawItem) (itemsO : List Okx.RawItem) :
    ((Binance.fetchOrders (some (some itemsB)) nowSec nowMs tradeType).toOption.getD []).length
        = itemsB.countP Binance.rawNoNaN ∧
    ((Okx.fetchOrders (some (some itemsO)) nowSec nowMs tradeType rand).toOption.getD []).length
        = itemsO.countP Okx.rawNoNaN ∧
    ((Binance.fetchOrders (some (some itemsB)) nowSec nowMs tradeType).toOption.getD []).all
        orderNumsOk = true ∧
    ((Okx.fetchOrders (some (some itemsO)) nowSec nowMs tradeType rand).toOption.getD []).all
        orderNumsOk = true := by
  refine ⟨?_, ?_, ?_, ?_⟩
  · exact length_reduceOption_mapWithIndex _ _
      (binance_isSome_normalizeItem nowSec nowMs tradeType) itemsB 0
  · exact length_reduceOption_mapWithIndex _ _
      (okx_isSome_normalizeItem nowSec nowMs tradeType rand) itemsO 0
  · exact all_reduceOption_mapWithIndex _ _
      (fun i a b hb => binance_normalizeItem_numsOk nowSec nowMs tradeType i a b hb) itemsB 0
  · exact all_reduceOption_mapWithIndex _ _
      (fun i a b hb => okx_normalizeItem_numsOk nowSec nowMs tradeType rand i a b hb) itemsO 0

/-- C2: the claim states that a malformed envelope yields an empty offer
sequence without raising.  At a body with no `data` container key both
adapters instead throw `Invalid API response structure`. -/
theorem c2_counterexample :
    Binance.fetchOrders none 0 0 "BUY" = .error "Invalid API response structure" ∧
    Okx.fetchOrders none 0 0 "BUY" (fun _ => "r") = .error "Invalid API response structure" := by
  exact ⟨rfl, rfl⟩

/-- C2 (amended): on every malformed envelope (body absent, or the `data`
container key absent/falsy) both adapters throw
`Invalid API response structure` — the error propagates out of `fetchOrders`
rather than an empty sequence being returned. -/
theorem c2_malformed_envelope_raises (nowSec nowMs : ℤ) (tradeType : String)
    (rand : ℕ → String) :
    Binance.fetchOrders none nowSec nowMs tradeType
        = .error "Invalid API response structure" ∧
    Binance.fetchOrders (some none) nowSec nowMs tradeType
        = .error "Invalid API response structure" ∧
    Okx.fetchOrders none nowSec nowMs tradeType rand
        = .error "Invalid API response structure" ∧
    Okx.fetchOrders (some none) nowSec nowMs tradeType rand
        = .error "Invalid API response structure" := by
  exact ⟨rfl, rfl, rfl, rfl⟩

/-- The `tradeMethods` entry used by the C9 counterexample. -/
def c9Method : TradeMethod := ⟨some "BANK", none⟩

/-- A Binance raw item with a duplicated payment method. -/
def c9Item : Binance.RawItem :=
  ⟨⟨some "A2", .fin 1, .fin 1, .fin 1, .fin 1, some [c9Method, c9Method]⟩, sampleAdvertiser⟩

/-- A Binance raw item with no `tradeMethods` field. -/
def c9ItemNoMethods : Binance.RawItem :=
  ⟨⟨some "A3", .fin 1, .fin 1, .fin 1, .fin 1, none⟩, sampleAdvertiser⟩

/-- C9: the claim states every normalized order's payment-method list is
non-empty and duplicate-free.  The Binance normalizer emits
`[some BANK, some BANK]` (duplicates kept) for a duplicated source list and
`[]` (empty, no `Unknown` placeholder) when `tradeMethods` is absent. -/
theorem c9_counterexample :
    ((Binance.fetchOrders (some (some [c9Item, c9ItemNoMethods])) 0 0 "BUY").toOption.getD
        []).map (·.paymentMethods) = [[some "BANK", some "BANK"], []] ∧
    ¬ ([some "BANK", some "BANK"] : List (Option String)).Nodup := by
  exact ⟨rfl, by decide⟩

/-- C9 (amended): each emitted order's `paymentMethods` is the verbatim,
order-preserving map of the source `tradeMethods` list — Binance copies
`method.identifier` as is (possibly absent), OKX uses
`identifier || payType || Unknown` — with duplicates kept, and it is empty
exactly when the source list is absent. -/
theorem c9_payment_methods_verbatim (nowSec nowMs : ℤ) (tradeType : String)
    (rand : ℕ → String) (idx : ℕ) (itemB : Binance.RawItem) (itemO : Okx.RawItem)
    (o o2 : Order) :
    (Binance.normalizeItem nowSec nowMs tradeType idx itemB = some o →
      o.paymentMethods =
        (match itemB.adv.tradeMethods with
          | some ms => ms.map (·.identifier)
          | none => [])) ∧
    (Okx.normalizeItem nowSec nowMs tradeType rand idx itemO = some o2 →
      o2.paymentMethods =
        (match (itemO.adv.getD Okx.emptyAdv).tradeMethods with
          | some ms => ms.map (fun m => some (Okx.methodLabel m))
          | none => [])) := by
  constructor
  · intro h
    simp only [Binance.normalizeItem] at h
    split at h
    · exact absurd h (by simp)
    · obtain rfl := Option.some_injective _ h.symm
      rfl
  · intro h
    simp only [Okx.normalizeItem] at h
    split at h
    · exact absurd h (by simp)
    · obtain rfl := Option.some_injective _ h.symm
      rfl

/-- The order the Binance normalizer produces from `c9Item`. -/
def c9OutOrder : Order :=
  { advNo := "A2"
    id := "A2"
    price := .fin 1
    amount := .fin 1
    minAmount := .fin 1
    maxAmount := .fin 1
    paymentMethods := [some "BANK", some "BANK"]
    merchant := ⟨some "m", 1, 100, 1, 0, "user", ""⟩ }

/-- Witness for the amended C9: at the concrete duplicated-methods item the
emitted payment methods equal the verbatim map of the source list. -/
theorem c9_witness :
    c9OutOrder.paymentMethods = [some "BANK", some "BANK"] :=
  (c9_payment_methods_verbatim 0 0 "BUY" (fun _ => "r") 0 c9Item ⟨none, none⟩
    c9OutOrder c9OutOrder).1 rfl

/-! ## The rational-valued downstream layer

The differ, the sort in `getOrders`, the arbitrage matcher, the depth
bucketizer and the spot resolver all read already-normalized orders and only
ever compare, add, divide and sort their numeric fields.  They are embedded
over rational-valued orders (`QOrder`). -/

/-- The merchant fields read by the downstream computations. -/
structure QMerchant where
  rating : ℚ
  completedTrades : ℚ
deriving DecidableEq

/-- A normalized order as consumed by the differ, sorter, matcher,
bucketizer and spot resolver. -/
structure QOrder where
  advNo : String
  id : String
  price : ℚ
  amount : ℚ
  minAmount : ℚ
  maxAmount : ℚ
  paymentMethods : List String
  merchant : QMerchant
deriving DecidableEq

/-- `hasOrdersChanged` of both services: builds the set of new ids and
reports whether there is any removal (a previous id missing from the new
set) or any addition (a new id missing from the previous set). -/
def hasOrdersChanged (newOrders : List QOrder) (previousOrderIds : Finset String) : Bool :=
  let newOrderIds : Finset String := (newOrders.map (·.advNo)).toFinset
  let hasRemovals := decide (∃ i ∈ previousOrderIds, i ∉ newOrderIds)
  let hasAdditions := decide (∃ i ∈ newOrderIds, i ∉ previousOrderIds)
  hasRemovals || hasAdditions

/-- The id set retained by `updatePreviousOrders`. -/
def idSet (orders : List QOrder) : Finset String := (orders.map (·.advNo)).toFinset

/-- The carried-over per-service diff state (`previousBuyOrders`,
`previousSellOrders`). -/
structure DifferState where
  previousBuyOrders : Finset String
  previousSellOrders : Finset String
deriving DecidableEq

/-- The `P2POrdersResponse` returned by `getOrders`. -/
structure P2POrdersResponse where
  buyOrders : List QOrder
  sellOrders : List QOrder
  hasChanges : Bool
deriving DecidableEq

/-- The ascending comparator `(a, b) => a.price - b.price`: `a` sorts no
later than `b` when `a.price ≤ b.price`. -/
def priceAscLE (a b : QOrder) : Bool := decide (a.price ≤ b.price)

/-- The descending comparator `(a, b) => b.price - a.price`. -/
def priceDescLE (a b : QOrder) : Bool := decide (b.price ≤ a.price)

/-- `BinanceP2PService.getOrders` as a pure state-passing function of the two
fetch results: on success it sorts buys ascending and sells descending by
price (a stable sort, as `Array.prototype.sort` is), diffs both sides
against the previous state, replaces the state, and returns the snapshot;
if either fetch rejected, the error is rethrown and the state is left
untouched. -/
def binanceGetOrders (buyRes sellRes : Except String (List QOrder))
    (st : DifferState) : Except String P2POrdersResponse × DifferState :=
  match buyRes, sellRes with
  | .ok buyOrders, .ok sellOrders =>
      let sortedBuyOrders := buyOrders.mergeSort priceAscLE
      let sortedSellOrders := sellOrders.mergeSort priceDescLE
      let buyOrdersChanged := hasOrdersChanged sortedBuyOrders st.previousBuyOrders
      let sellOrdersChanged := hasOrdersChanged sortedSellOrders st.previousSellOrders
      (.ok ⟨sortedBuyOrders, sortedSellOrders, buyOrdersChanged || sellOrdersChanged⟩,
        ⟨idSet sortedBuyOrders, idSet sortedSellOrders⟩)
  | .error e, _ => (.error e, st)
  | _, .error e => (.error e, st)

/-- `OkxP2PService.getOrders`: identical to the Binance one except that the
fetched lists are passed through without any sorting. -/
def okxGetOrders (buyRes sellRes : Except String (List QOrder))
    (st : DifferState) : Except String P2POrdersResponse × DifferState :=
  match buyRes, sellRes with
  | .ok buyOrders, .ok sellOrders =>
      let buyOrdersChanged := hasOrdersChanged buyOrders st.previousBuyOrders
      let sellOrdersChanged := hasOrdersChanged sellOrders st.previousSellOrders
      (.ok ⟨buyOrders, sellOrders, buyOrdersChanged || sellOrdersChanged⟩,
        ⟨idSet buyOrders, idSet sellOrders⟩)
  | .error e, _ => (.error e, st)
  | _, .error e => (.error e, st)

/-- C4: `hasOrdersChanged` returns `false` exactly when the id set of the new
orders equals the previous id set, and its value depends only on the list of
ids — changes to price, amount or merchant fields on an unchanged id set
never flip it.  Any addition or removal (set inequality) makes it `true`. -/
theorem c4_diff_symmetry (newOrders : List QOrder) (previousOrderIds : Finset String) :
    (hasOrdersChanged newOrders previousOrderIds = false ↔
      (newOrders.map (·.advNo)).toFinset = previousOrderIds) ∧
    (∀ orders2 : List QOrder, orders2.map (·.advNo) = newOrders.map (·.advNo) →
      hasOrdersChanged orders2 previousOrderIds
        = hasOrdersChanged newOrders previousOrderIds) := by
  constructor
  · simp only [hasOrdersChanged, Bool.or_eq_false_iff, decide_eq_false_iff_not,
      not_exists, not_and, not_not]
    constructor
    · rintro ⟨h1, h2⟩
      apply Finset.ext
      intro a
      exact ⟨fun ha => h2 a ha, fun ha => h1 a ha⟩
    · rintro rfl
      exact ⟨fun a ha => ha, fun a ha => ha⟩
  · intro orders2 h2
    simp only [hasOrdersChanged, h2]

/-- Witness for C4 at concrete inputs: previous ids `{A, B}` and new orders
with the same ids but different prices yield `hasChanged = false`. -/
theorem c4_witness :
    hasOrdersChanged
      [⟨"A", "A", 1, 1, 0, 1, [], ⟨1, 1⟩⟩, ⟨"B", "B", 2, 1, 0, 1, [], ⟨1, 1⟩⟩]
      {"A", "B"} = false ∧
    hasOrdersChanged
      [⟨"A", "A", 9, 9, 9, 9, [], ⟨0, 0⟩⟩, ⟨"B", "B", 7, 7, 7, 7, [], ⟨0, 0⟩⟩]
      {"A", "B"}
      = hasOrdersChanged
          [⟨"A", "A", 1, 1, 0, 1, [], ⟨1, 1⟩⟩, ⟨"B", "B", 2, 1, 0, 1, [], ⟨1, 1⟩⟩]
          {"A", "B"} := by
  constructor
  · exact (c4_diff_symmetry
      [⟨"A", "A", 1, 1, 0, 1, [], ⟨1, 1⟩⟩, ⟨"B", "B", 2, 1, 0, 1, [], ⟨1, 1⟩⟩]
      {"A", "B"}).1.mpr (by decide)
  · exact (c4_diff_symmetry
      [⟨"A", "A", 1, 1, 0, 1, [], ⟨1, 1⟩⟩, ⟨"B", "B", 2, 1, 0, 1, [], ⟨1, 1⟩⟩]
      {"A", "B"}).2
      [⟨"A", "A", 9, 9, 9, 9, [], ⟨0, 0⟩⟩, ⟨"B", "B", 7, 7, 7, 7, [], ⟨0, 0⟩⟩] rfl

/-- C10: the carried-over diff state is replaced only on success — whenever
either fetch rejects, `getOrders` rethrows and the previous id sets are
exactly as before the call; on success the returned `hasChanges` is computed
against the old state and the state then holds the id sets of the returned
lists. -/
theorem c10_diff_state_on_failure (buyRes sellRes : Except String (List QOrder))
    (st : DifferState) :
    ((binanceGetOrders buyRes sellRes st).1.isOk = false →
      (binanceGetOrders buyRes sellRes st).2 = st) ∧
    ((okxGetOrders buyRes sellRes st).1.isOk = false →
      (okxGetOrders buyRes sellRes st).2 = st) ∧
    (∀ resp, (binanceGetOrders buyRes sellRes st).1 = .ok resp →
      (binanceGetOrders buyRes sellRes st).2
          = ⟨idSet resp.buyOrders, idSet resp.sellOrders⟩ ∧
      resp.hasChanges = (hasOrdersChanged resp.buyOrders st.previousBuyOrders
          || hasOrdersChanged resp.sellOrders st.previousSellOrders)) ∧
    (∀ resp, (okxGetOrders buyRes sellRes st).1 = .ok resp →
      (okxGetOrders buyRes sellRes st).2
          = ⟨idSet resp.buyOrders, idSet resp.sellOrders⟩ ∧
      resp.hasChanges = (hasOrdersChanged resp.buyOrders st.previousBuyOrders
          || hasOrdersChanged resp.sellOrders st.previousSellOrders)) := by
  rcases buyRes with e | buy <;> rcases sellRes with e2 | sell <;>
    simp [binanceGetOrders, okxGetOrders, Except.isOk, Except.toBool]

/-- Witness for C10: at a concrete failed fetch the previous id sets come out
of `getOrders` exactly as they went in, for both services. -/
theorem c10_witness :
    (binanceGetOrders (.error "Failed to fetch orders") (.ok [])
        ⟨{"A"}, ∅⟩).2 = ⟨{"A"}, ∅⟩ ∧
    (okxGetOrders (.ok []) (.error "Failed to fetch orders")
        ⟨{"A"}, ∅⟩).2 = ⟨{"A"}, ∅⟩ :=
  ⟨(c10_diff_state_on_failure (.error "Failed to fetch orders") (.ok [])
      ⟨{"A"}, ∅⟩).1 rfl,
   (c10_diff_state_on_failure (.ok []) (.error "Failed to fetch orders")
      ⟨{"A"}, ∅⟩).2.1 rfl⟩

lemma priceAscLE_trans (a b c : QOrder) (hab : priceAscLE a b = true)
    (hbc : priceAscLE b c = true) : priceAscLE a c = true := by
  simp only [priceAscLE, decide_eq_true_eq] at *
  exact le_trans hab hbc

lemma priceAscLE_total (a b : QOrder) : (priceAscLE a b || priceAscLE b a) = true := by
  simp only [priceAscLE, Bool.or_eq_true, decide_eq_true_eq]
  exact le_total a.price b.price

lemma priceDescLE_trans (a b c : QOrder) (hab : priceDescLE a b = true)
    (hbc : priceDescLE b c = true) : priceDescLE a c = true := by
  simp only [priceDescLE, decide_eq_true_eq] at *
  exact le_trans hbc hab

lemma priceDescLE_total (a b : QOrder) : (priceDescLE a b || priceDescLE b a) = true := by
  simp only [priceDescLE, Bool.or_eq_true, decide_eq_true_eq]
  exact le_total b.price a.price

/-- A higher-priced order listed before a lower-priced one. -/
def c8o1 : QOrder := ⟨"a", "a", 2, 1, 0, 1, [], ⟨1, 100⟩⟩

/-- A lower-priced order listed after `c8o1`. -/
def c8o2 : QOrder := ⟨"b", "b", 1, 1, 0, 1, [], ⟨1, 100⟩⟩

/-- C8: the claim states both services return buy orders ascending by price.
The OKX `getOrders` performs no sorting at all: fed a buy list in descending
order, it returns it verbatim, which is not ascending. -/
theorem c8_counterexample :
    (okxGetOrders (.ok [c8o1, c8o2]) (.ok []) ⟨∅, ∅⟩).1
        = .ok ⟨[c8o1, c8o2], [], true⟩ ∧
    ¬ List.Pairwise (fun a b : QOrder => a.price ≤ b.price) [c8o1, c8o2] := by
  constructor
  · simp only [okxGetOrders, hasOrdersChanged, idSet, c8o1, c8o2]
    norm_num
  · norm_num [List.pairwise_cons, c8o1, c8o2]

/-- C8 (amended): the Binance `getOrders` returns buy orders sorted ascending
by price and sell orders sorted descending by price (permutations of the
fetched lists); the OKX `getOrders` returns both fetched lists in their
original order, with `hasChanges` diffed against the previous state. -/
theorem c8_sorted_per_service (buy sell : List QOrder) (st : DifferState) :
    (∀ resp, (binanceGetOrders (.ok buy) (.ok sell) st).1 = .ok resp →
      resp.buyOrders.Pairwise (fun a b => a.price ≤ b.price) ∧
      resp.sellOrders.Pairwise (fun a b => b.price ≤ a.price) ∧
      resp.buyOrders.Perm buy ∧ resp.sellOrders.Perm sell) ∧
    (okxGetOrders (.ok buy) (.ok sell) st).1
        = .ok ⟨buy, sell,
            hasOrdersChanged buy st.previousBuyOrders
              || hasOrdersChanged sell st.previousSellOrders⟩ := by
  constructor
  · intro resp h
    simp only [binanceGetOrders] at h
    obtain rfl := (Except.ok.inj h).symm
    refine ⟨?_, ?_, ?_, ?_⟩
    · exact (List.sorted_mergeSort priceAscLE_trans priceAscLE_total buy).imp
        (fun hab => by simpa [priceAscLE] using hab)
    · exact (List.sorted_mergeSort priceDescLE_trans priceDescLE_total sell).imp
        (fun hab => by simpa [priceDescLE] using hab)
    · exact List.mergeSort_perm buy priceAscLE
    · exact List.mergeSort_perm sell priceDescLE
  · rfl

/-- The snapshot the Binance service produces from the already-ascending buy
list `[c8o2, c8o1]` against an empty previous state. -/
def c8Resp : P2POrdersResponse := ⟨[c8o2, c8o1], [], true⟩

/-- Witness for the amended C8 at a concrete snapshot. -/
theorem c8_witness :
    c8Resp.buyOrders.Pairwise (fun a b => a.price ≤ b.price) ∧
    c8Resp.sellOrders.Pairwise (fun a b => b.price ≤ a.price) ∧
    c8Resp.buyOrders.Perm [c8o2, c8o1] ∧ c8Resp.sellOrders.Perm [] :=
  (c8_sorted_per_service [c8o2, c8o1] [] ⟨∅, ∅⟩).1 c8Resp (by
    have hsorted : [c8o2, c8o1].Pairwise (fun a b => priceAscLE a b = true) := by
      norm_num [List.pairwise_cons, priceAscLE, c8o1, c8o2]
    simp only [binanceGetOrders]
    rw [List.mergeSort_of_sorted hsorted, List.mergeSort_nil]
    simp only [c8Resp, hasOrdersChanged, idSet, c8o1, c8o2]
    norm_num)

/-! ## The arbitrage matcher -/

/-- The caller-supplied filters read by `calculateArbitrageOpportunities`. -/
structure Filters where
  minSpread : ℚ
  minAmount : ℚ
  maxAmount : ℚ
  paymentMethods : List String
  minUserRating : ℚ
  minCompletedTrades : ℚ
deriving DecidableEq

/-- One emitted cross-exchange opportunity, with the fields the code pushes. -/
structure ArbitrageOpportunity where
  id : String
  buyExchange : String
  sellExchange : String
  crypto : String
  fiat : String
  buyPrice : ℚ
  sellPrice : ℚ
  spread : ℚ
  spreadPercentage : ℚ
  minAmount : ℚ
  maxAmount : ℚ
  buyPaymentMethods : List String
  sellPaymentMethods : List String
  timestamp : ℤ
deriving DecidableEq

/-- The body of the nested loops of `calculateArbitrageOpportunities` for one
`(buyOrder, sellOrder)` pair: skip on merchant quality, then on spread, then
on an empty trade window; otherwise push the opportunity. -/
def opportunityOf (leftExchange rightExchange crypto fiat : String) (nowMs : ℤ)
    (currentFilters : Filters) (buyOrder sellOrder : QOrder) :
    Option ArbitrageOpportunity :=
  if buyOrder.merchant.rating < currentFilters.minUserRating ∨
      sellOrder.merchant.rating < currentFilters.minUserRating ∨
      buyOrder.merchant.completedTrades < currentFilters.minCompletedTrades ∨
      sellOrder.merchant.completedTrades < currentFilters.minCompletedTrades then
    none
  else
    let spread := sellOrder.price - buyOrder.price
    let spreadPercentage := spread / buyOrder.price * 100
    if currentFilters.minSpread ≤ spreadPercentage then
      let minAmount := max (max buyOrder.minAmount sellOrder.minAmount)
        currentFilters.minAmount
      let maxAmount := min (min buyOrder.maxAmount sellOrder.maxAmount)
        currentFilters.maxAmount
      if minAmount ≤ maxAmount then
        some
          { id := buyOrder.id ++ "-" ++ sellOrder.id
            buyExchange := leftExchange
            sellExchange := rightExchange
            crypto := crypto
            fiat := fiat
            buyPrice := buyOrder.price
            sellPrice := sellOrder.price
            spread := spread
            spreadPercentage := spreadPercentage
            minAmount := minAmount
            maxAmount := maxAmount
            buyPaymentMethods := buyOrder.paymentMethods
            sellPaymentMethods := sellOrder.paymentMethods
            timestamp := nowMs }
      else none
    else none

/-- The opportunity list in insertion order of the Cartesian-product
enumeration (outer loop over buys, inner loop over sells), before sorting. -/
def rawOpportunities (leftExchange rightExchange crypto fiat : String) (nowMs : ℤ)
    (buyOrders sellOrders : List QOrder) (currentFilters : Filters) :
    List ArbitrageOpportunity :=
  (buyOrders.map (fun b => sellOrders.filterMap
    (opportunityOf leftExchange rightExchange crypto fiat nowMs currentFilters b))).flatten

/-- The comparator `(a, b) => b.spreadPercentage - a.spreadPercentage`: `a`
sorts no later than `b` when its spread percentage is at least `b`'s. -/
def oppDescLE (a b : ArbitrageOpportunity) : Bool :=
  decide (b.spreadPercentage ≤ a.spreadPercentage)

/-- `calculateArbitrageOpportunities`: enumerate, filter, then stable-sort
descending by spread percentage. -/
def calculateArbitrageOpportunities (leftExchange rightExchange crypto fiat : String)
    (nowMs : ℤ) (buyOrders sellOrders : List QOrder) (currentFilters : Filters) :
    List ArbitrageOpportunity :=
  (rawOpportunities leftExchange rightExchange crypto fiat nowMs buyOrders sellOrders
    currentFilters).mergeSort oppDescLE

lemma oppDescLE_trans (a b c : ArbitrageOpportunity) (hab : oppDescLE a b = true)
    (hbc : oppDescLE b c = true) : oppDescLE a c = true := by
  simp only [oppDescLE, decide_eq_true_eq] at *
  exact le_trans hbc hab

lemma oppDescLE_total (a b : ArbitrageOpportunity) :
    (oppDescLE a b || oppDescLE b a) = true := by
  simp only [oppDescLE, Bool.or_eq_true, decide_eq_true_eq]
  exact le_total b.spreadPercentage a.spreadPercentage

/-- C3: every emitted opportunity has a feasible trade window
(`minAmount ≤ maxAmount`, the intersection of both orders' limits and the
caller's bounds), meets the spread threshold, and comes from a buy/sell pair
both of whose merchants meet the rating and completed-trades thresholds. -/
theorem c3_feasibility (leftExchange rightExchange crypto fiat : String) (nowMs : ℤ)
    (buyOrders sellOrders : List QOrder) (currentFilters : Filters)
    (opp : ArbitrageOpportunity)
    (hmem : opp ∈ calculateArbitrageOpportunities leftExchange rightExchange crypto fiat
      nowMs buyOrders sellOrders currentFilters) :
    opp.minAmount ≤ opp.maxAmount ∧
    currentFilters.minSpread ≤ opp.spreadPercentage ∧
    ∃ b ∈ buyOrders, ∃ s ∈ sellOrders,
      opp.buyPrice = b.price ∧ opp.sellPrice = s.price ∧
      opp.minAmount = max (max b.minAmount s.minAmount) currentFilters.minAmount ∧
      opp.maxAmount = min (min b.maxAmount s.maxAmount) currentFilters.maxAmount ∧
      currentFilters.minUserRating ≤ b.merchant.rating ∧
      currentFilters.minUserRating ≤ s.merchant.rating ∧
      currentFilters.minCompletedTrades ≤ b.merchant.completedTrades ∧
      currentFilters.minCompletedTrades ≤ s.merchant.completedTrades := by
  have hraw : opp ∈ rawOpportunities leftExchange rightExchange crypto fiat nowMs
      buyOrders sellOrders currentFilters :=
    (List.mergeSort_perm _ oppDescLE).mem_iff.mp hmem
  simp only [rawOpportunities, List.mem_flatten, List.mem_map] at hraw
  obtain ⟨L, ⟨b, hb, rfl⟩, hL⟩ := hraw
  rw [List.mem_filterMap] at hL
  obtain ⟨s, hs, hopp⟩ := hL
  simp only [opportunityOf] at hopp
  split at hopp
  · exact absurd hopp (by simp)
  · next hq =>
    push_neg at hq
    obtain ⟨hq1, hq2, hq3, hq4⟩ := hq
    split at hopp
    · next hsp =>
      split at hopp
      · next hw =>
        obtain rfl := (Option.some_injective _ hopp).symm
        exact ⟨hw, hsp, b, hb, s, hs, rfl, rfl, rfl, rfl, hq1, hq2, hq3, hq4⟩
      · exact absurd hopp (by simp)
    · exact absurd hopp (by simp)

/-- The concrete buy order for the C3 and C5 witnesses. -/
def wBuy : QOrder := ⟨"b1", "b1", 1, 50, 10, 1000, ["BANK"], ⟨1, 200⟩⟩

/-- A second buy order with the same numbers, used for the C5 tie. -/
def wBuy2 : QOrder := ⟨"b2", "b2", 1, 50, 10, 1000, ["BANK"], ⟨1, 200⟩⟩

/-- The concrete sell order for the C3 and C5 witnesses. -/
def wSell : QOrder := ⟨"s1", "s1", 2, 50, 10, 500, ["CARD"], ⟨1, 200⟩⟩

/-- The filters for the C3 and C5 witnesses. -/
def wFilters : Filters := ⟨5, 10, 100000, [], 95 / 100, 100⟩

/-- The opportunity `wBuy`/`wSell` produces under `wFilters`. -/
def wOpp : ArbitrageOpportunity :=
  ⟨"b1-s1", "binance", "okx", "USDT", "USD", 1, 2, 1, 100, 10, 500,
    ["BANK"], ["CARD"], 0⟩

/-- The tied opportunity `wBuy2`/`wSell` produces under `wFilters`. -/
def wOpp2 : ArbitrageOpportunity :=
  ⟨"b2-s1", "binance", "okx", "USDT", "USD", 1, 2, 1, 100, 10, 500,
    ["BANK"], ["CARD"], 0⟩

/-- Witness for C3 at a concrete matcher run. -/
theorem c3_witness :
    wOpp.minAmount ≤ wOpp.maxAmount ∧
    wFilters.minSpread ≤ wOpp.spreadPercentage ∧
    ∃ b ∈ [wBuy], ∃ s ∈ [wSell],
      wOpp.buyPrice = b.price ∧ wOpp.sellPrice = s.price ∧
      wOpp.minAmount = max (max b.minAmount s.minAmount) wFilters.minAmount ∧
      wOpp.maxAmount = min (min b.maxAmount s.maxAmount) wFilters.maxAmount ∧
      wFilters.minUserRating ≤ b.merchant.rating ∧
      wFilters.minUserRating ≤ s.merchant.rating ∧
      wFilters.minCompletedTrades ≤ b.merchant.completedTrades ∧
      wFilters.minCompletedTrades ≤ s.merchant.completedTrades :=
  c3_feasibility "binance" "okx" "USDT" "USD" 0 [wBuy] [wSell] wFilters wOpp
    (by
      have hraw : rawOpportunities "binance" "okx" "USDT" "USD" 0 [wBuy] [wSell]
          wFilters = [wOpp] := by
        norm_num [rawOpportunities, opportunityOf, wBuy, wSell, wFilters, wOpp,
          List.filterMap]
        rfl
      rw [calculateArbitrageOpportunities, hraw, List.mergeSort_singleton]
      exact List.mem_singleton_self wOpp)

/-- C5: the matcher's output is the stable descending sort of the insertion
sequence — pairwise non-increasing in `spreadPercentage`, and any two
opportunities tied on `spreadPercentage` keep their insertion order. -/
theorem c5_sorted_stably (leftExchange rightExchange crypto fiat : String) (nowMs : ℤ)
    (buyOrders sellOrders : List QOrder) (currentFilters : Filters) :
    (calculateArbitrageOpportunities leftExchange rightExchange crypto fiat nowMs
      buyOrders sellOrders currentFilters).Pairwise
        (fun a b => b.spreadPercentage ≤ a.spreadPercentage) ∧
    ∀ a b : ArbitrageOpportunity,
      [a, b].Sublist (rawOpportunities leftExchange rightExchange crypto fiat nowMs
        buyOrders sellOrders currentFilters) →
      a.spreadPercentage = b.spreadPercentage →
      [a, b].Sublist (calculateArbitrageOpportunities leftExchange rightExchange crypto
        fiat nowMs buyOrders sellOrders currentFilters) := by
  constructor
  · exact (List.sorted_mergeSort oppDescLE_trans oppDescLE_total _).imp
      (fun hab => by simpa [oppDescLE] using hab)
  · intro a b hsub heq
    exact List.sublist_mergeSort oppDescLE_trans oppDescLE_total
      (by simp [oppDescLE, heq]) hsub

/-- Witness for C5 at a concrete run with two tied opportunities: they keep
their insertion order through the sort. -/
theorem c5_witness :
    (calculateArbitrageOpportunities "binance" "okx" "USDT" "USD" 0 [wBuy, wBuy2]
      [wSell] wFilters).Pairwise
        (fun a b => b.spreadPercentage ≤ a.spreadPercentage) ∧
    [wOpp, wOpp2].Sublist (calculateArbitrageOpportunities "binance" "okx" "USDT"
      "USD" 0 [wBuy, wBuy2] [wSell] wFilters) := by
  refine ⟨(c5_sorted_stably "binance" "okx" "USDT" "USD" 0 [wBuy, wBuy2] [wSell]
    wFilters).1, ?_⟩
  refine (c5_sorted_stably "binance" "okx" "USDT" "USD" 0 [wBuy, wBuy2] [wSell]
    wFilters).2 wOpp wOpp2 ?_ rfl
  have hraw : rawOpportunities "binance" "okx" "USDT" "USD" 0 [wBuy, wBuy2] [wSell]
      wFilters = [wOpp, wOpp2] := by
    norm_num [rawOpportunities, opportunityOf, wBuy, wBuy2, wSell, wFilters, wOpp,
      wOpp2, List.filterMap]
    exact ⟨rfl, rfl⟩
  rw [hraw]

/-! ## The depth bucketizer -/

/-- `Math.min(...prices)` over a non-empty list (`0` junk value for `[]`,
which the code never reaches thanks to its non-empty guard). -/
def listMin : List ℚ → ℚ
  | [] => 0
  | p :: ps => ps.foldl min p

/-- `Math.max(...prices)` over a non-empty list. -/
def listMax : List ℚ → ℚ
  | [] => 0
  | p :: ps => ps.foldl max p

/-- `allPrices`: buy prices followed by sell prices. -/
def allPrices (buyOrders sellOrders : List QOrder) : List ℚ :=
  buyOrders.map (·.price) ++ sellOrders.map (·.price)

/-- `Math.floor((order.price - minPrice) / bucketSize)` with JavaScript
semantics at a zero bucket width: the quotient is then `NaN` or `±∞`, the
bounds check `0 ≤ k < n` fails either way, and the order lands in no bucket;
this is modelled by `none`. -/
def jsBucketIndex (minPrice bucketSize p : ℚ) : Option ℤ :=
  if bucketSize = 0 then none else some ⌊(p - minPrice) / bucketSize⌋

/-- The non-cumulative bucket accumulation loop: `new Array(n).fill(0)`
followed by `orders.forEach(...)` adding each order's amount to its bucket
when the index is within bounds. -/
def fillBuckets (minPrice bucketSize : ℚ) (n : ℕ) (orders : List QOrder) : ℕ → ℚ :=
  orders.foldl
    (fun data o =>
      match jsBucketIndex minPrice bucketSize o.price with
      | none => data
      | some k =>
          if 0 ≤ k ∧ k < (n : ℤ) then
            Function.update data k.toNat (data k.toNat + o.amount)
          else data)
    (fun _ => 0)

/-- `bucketSize = range / 10` with `range = maxPrice - minPrice`. -/
def depthBucketSize (buyOrders sellOrders : List QOrder) : ℚ :=
  (listMax (allPrices buyOrders sellOrders) - listMin (allPrices buyOrders sellOrders)) / 10

/-- The buy-side `buyData` before the cumulative pass (12 buckets). -/
def buyBucketData (buyOrders sellOrders : List QOrder) : ℕ → ℚ :=
  fillBuckets (listMin (allPrices buyOrders sellOrders))
    (depthBucketSize buyOrders sellOrders) 12 buyOrders

/-- The sell-side `sellData` before the cumulative pass (12 buckets). -/
def sellBucketData (buyOrders sellOrders : List QOrder) : ℕ → ℚ :=
  fillBuckets (listMin (allPrices buyOrders sellOrders))
    (depthBucketSize buyOrders sellOrders) 12 sellOrders

lemma foldl_min_le (a : ℚ) (l : List ℚ) : ∀ x ∈ a :: l, l.foldl min a ≤ x := by
  induction l generalizing a with
  | nil =>
    intro x hx
    rw [List.mem_singleton] at hx
    simp [hx]
  | cons b t ih =>
    intro x hx
    simp only [List.foldl_cons]
    rcases List.mem_cons.mp hx with rfl | hx2
    · exact le_trans (ih (min x b) (min x b) (List.mem_cons_self _ _)) (min_le_left x b)
    · rcases List.mem_cons.mp hx2 with rfl | hx3
      · exact le_trans (ih (min a x) (min a x) (List.mem_cons_self _ _)) (min_le_right a x)
      · exact ih (min a b) x (List.mem_cons_of_mem _ hx3)

lemma le_foldl_max (a : ℚ) (l : List ℚ) : ∀ x ∈ a :: l, x ≤ l.foldl max a := by
  induction l generalizing a with
  | nil =>
    intro x hx
    rw [List.mem_singleton] at hx
    simp [hx]
  | cons b t ih =>
    intro x hx
    simp only [List.foldl_cons]
    rcases List.mem_cons.mp hx with rfl | hx2
    · exact le_trans (le_max_left x b) (ih (max x b) (max x b) (List.mem_cons_self _ _))
    · rcases List.mem_cons.mp hx2 with rfl | hx3
      · exact le_trans (le_max_right a x) (ih (max a x) (max a x) (List.mem_cons_self _ _))
      · exact ih (max a b) x (List.mem_cons_of_mem _ hx3)

lemma listMin_le (l : List ℚ) (x : ℚ) (hx : x ∈ l) : listMin l ≤ x := by
  cases l with
  | nil => cases hx
  | cons p ps => exact foldl_min_le p ps x hx

lemma le_listMax (l : List ℚ) (x : ℚ) (hx : x ∈ l) : x ≤ listMax l := by
  cases l with
  | nil => cases hx
  | cons p ps => exact le_foldl_max p ps x hx

lemma sum_update_add (data : ℕ → ℚ) (n j : ℕ) (hj : j < n) (a : ℚ) :
    ∑ i ∈ Finset.range n, Function.update data j (data j + a) i
      = (∑ i ∈ Finset.range n, data i) + a := by
  have hmem : j ∈ Finset.range n := Finset.mem_range.mpr hj
  rw [Finset.sum_update_of_mem hmem, ← Finset.erase_eq,
    ← Finset.add_sum_erase _ data hmem]
  ring

lemma fillBuckets_sum_aux (minPrice bucketSize : ℚ) (n : ℕ) (orders : List QOrder)
    (hidx : ∀ o ∈ orders, ∃ k : ℤ, jsBucketIndex minPrice bucketSize o.price = some k ∧
      0 ≤ k ∧ k < (n : ℤ)) :
    ∀ data : ℕ → ℚ,
      ∑ i ∈ Finset.range n,
          (orders.foldl
            (fun data o =>
              match jsBucketIndex minPrice bucketSize o.price with
              | none => data
              | some k =>
                  if 0 ≤ k ∧ k < (n : ℤ) then
                    Function.update data k.toNat (data k.toNat + o.amount)
                  else data)
            data) i
        = (∑ i ∈ Finset.range n, data i) + ((orders.map (·.amount)).sum) := by
  induction orders with
  | nil => intro data; simp
  | cons o os ih =>
    intro data
    obtain ⟨k, hk, hk0, hkn⟩ := hidx o (List.mem_cons_self o os)
    have hjn : k.toNat < n := by omega
    rw [List.foldl_cons, ih (fun o2 ho2 => hidx o2 (List.mem_cons_of_mem _ ho2)), hk]
    simp only [if_pos (And.intro hk0 hkn)]
    rw [sum_update_add data n k.toNat hjn o.amount, List.map_cons, List.sum_cons]
    ring

/-- All of a list's orders land in a bucket within `[0, 12)` when the price
range is positive. -/
lemma bucket_index_in_range (buyOrders sellOrders : List QOrder) (o : QOrder)
    (hp : o.price ∈ allPrices buyOrders sellOrders)
    (hw : listMin (allPrices buyOrders sellOrders)
      < listMax (allPrices buyOrders sellOrders)) :
    ∃ k : ℤ, jsBucketIndex (listMin (allPrices buyOrders sellOrders))
        (depthBucketSize buyOrders sellOrders) o.price = some k ∧
      0 ≤ k ∧ k < (12 : ℤ) := by
  set mn := listMin (allPrices buyOrders sellOrders) with hmn
  set mx := listMax (allPrices buyOrders sellOrders) with hmx
  have hbs : depthBucketSize buyOrders sellOrders = (mx - mn) / 10 := rfl
  have hpos : 0 < (mx - mn) / 10 := by
    apply div_pos (by linarith) (by norm_num)
  refine ⟨⌊(o.price - mn) / ((mx - mn) / 10)⌋, ?_, ?_, ?_⟩
  · rw [jsBucketIndex, hbs, if_neg (ne_of_gt hpos)]
  · exact Int.floor_nonneg.mpr (div_nonneg (by linarith [listMin_le _ _ hp]) (le_of_lt hpos))
  · have h10 : (o.price - mn) / ((mx - mn) / 10) ≤ 10 := by
      rw [div_le_iff₀ hpos]
      have hle := le_listMax _ _ hp
      have hten : 10 * ((mx - mn) / 10) = mx - mn := by ring
      rw [hten]
      linarith
    calc ⌊(o.price - mn) / ((mx - mn) / 10)⌋ ≤ ⌊(10 : ℚ)⌋ := Int.floor_le_floor h10
      _ = 10 := by norm_num
      _ < 12 := by norm_num

/-- A single buy order and a single sell order at the same price: the price
range is zero-width. -/
def c6Buy : QOrder := ⟨"b", "b", 1, 5, 0, 10, [], ⟨1, 1⟩⟩

/-- The matching sell order at the same price as `c6Buy`. -/
def c6Sell : QOrder := ⟨"s", "s", 1, 3, 0, 10, [], ⟨1, 1⟩⟩

/-- C6: the claim includes the single-price (zero-width range) case.  There
`bucketSize = 0`, every index computation yields `NaN`, every order fails the
bounds check, and all volume is lost: the buckets sum to `0` while the buy
amounts sum to `5`. -/
theorem c6_counterexample :
    (∑ i ∈ Finset.range 12, buyBucketData [c6Buy] [c6Sell] i) = 0 ∧
    (([c6Buy].map (·.amount)).sum) = 5 := by
  constructor
  · have hz : depthBucketSize [c6Buy] [c6Sell] = 0 := by
      norm_num [depthBucketSize, allPrices, listMax, listMin, c6Buy, c6Sell]
    simp [buyBucketData, fillBuckets, jsBucketIndex, hz]
  · norm_num [c6Buy]

/-- C6 (amended): whenever the combined price range is positive
(`minPrice < maxPrice`), the non-cumulative bucket volumes conserve the
total: the 12 buy buckets sum to the total buy amount and the 12 sell
buckets to the total sell amount.  In the zero-width case all volume is
dropped instead. -/
theorem c6_bucket_conservation (buyOrders sellOrders : List QOrder)
    (_hb : buyOrders ≠ []) (_hs : sellOrders ≠ [])
    (hw : listMin (allPrices buyOrders sellOrders)
      < listMax (allPrices buyOrders sellOrders)) :
    (∑ i ∈ Finset.range 12, buyBucketData buyOrders sellOrders i)
        = (buyOrders.map (·.amount)).sum ∧
    (∑ i ∈ Finset.range 12, sellBucketData buyOrders sellOrders i)
        = (sellOrders.map (·.amount)).sum := by
  constructor
  · rw [buyBucketData, fillBuckets, fillBuckets_sum_aux _ _ 12 buyOrders
      (fun o ho => bucket_index_in_range buyOrders sellOrders o
        (by rw [allPrices]; exact List.mem_append_left _ (List.mem_map_of_mem _ ho)) hw)]
    simp
  · rw [sellBucketData, fillBuckets, fillBuckets_sum_aux _ _ 12 sellOrders
      (fun o ho => bucket_index_in_range buyOrders sellOrders o
        (by rw [allPrices]; exact List.mem_append_right _ (List.mem_map_of_mem _ ho)) hw)]
    simp

/-- The buy order of the C6 witness (price 1, amount 2). -/
def c6wBuy : QOrder := ⟨"b", "b", 1, 2, 0, 1, [], ⟨1, 1⟩⟩

/-- The sell order of the C6 witness (price 2, amount 3). -/
def c6wSell : QOrder := ⟨"s", "s", 2, 3, 0, 1, [], ⟨1, 1⟩⟩

/-- Witness for the amended C6 at a concrete positive-width book. -/
theorem c6_witness :
    (∑ i ∈ Finset.range 12, buyBucketData [c6wBuy] [c6wSell] i)
        = (([c6wBuy].map (·.amount)).sum) ∧
    (∑ i ∈ Finset.range 12, sellBucketData [c6wBuy] [c6wSell] i)
        = (([c6wSell].map (·.amount)).sum) :=
  c6_bucket_conservation [c6wBuy] [c6wSell] (by simp) (by simp)
    (by norm_num [listMin, listMax, allPrices, c6wBuy, c6wSell])

/-! ## The spot price resolver -/

/-- The side averages of `useFallbackPrice`:
`length > 0 ? sum / length : 0`. -/
def avgPrice (orders : List QOrder) : ℚ :=
  if 0 < orders.length then ((orders.map (·.price)).sum) / orders.length else 0

/-- `useFallbackPrice` of the order-book analysis component: a side
participates when its average is truthy (nonzero); when both averages are
falsy no price is set (`none`). -/
def useFallbackPrice (buyOrders sellOrders : List QOrder) : Option ℚ :=
  let buyAvg := avgPrice buyOrders
  let sellAvg := avgPrice sellOrders
  if buyAvg ≠ 0 ∧ sellAvg ≠ 0 then some ((buyAvg + sellAvg) / 2)
  else if buyAvg ≠ 0 then some buyAvg
  else if sellAvg ≠ 0 then some sellAvg
  else none

/-- The spot-price resolution effect: the `spotPrice` prop if supplied
(checked against `undefined`, so even `0` is used); else the hardcoded `1`
for USD/USDT and USD/USDC; else a truthy fetched CoinGecko quote
(`geckoQuote`; `none` models a failed fetch, missing data or a falsy
quote); else the order-average fallback. -/
def resolveSpot (spotPrice : Option ℚ) (fiat crypto : String) (geckoQuote : Option ℚ)
    (buyOrders sellOrders : List QOrder) : Option ℚ :=
  match spotPrice with
  | some p => some p
  | none =>
      if fiat = "USD" ∧ (crypto = "USDT" ∨ crypto = "USDC") then some 1
      else
        match geckoQuote with
        | some p => some p
        | none => useFallbackPrice buyOrders sellOrders

/-- The claim's stated precedence, verbatim: external quote, hardcoded 1:1,
average of both side averages when both sides are non-empty, the single
non-empty side's average, and unresolved when both sides are empty. -/
def resolveSpotClaim (spotPrice : Option ℚ) (fiat crypto : String)
    (buyOrders sellOrders : List QOrder) : Option ℚ :=
  match spotPrice with
  | some p => some p
  | none =>
      if fiat = "USD" ∧ (crypto = "USDT" ∨ crypto = "USDC") then some 1
      else if buyOrders ≠ [] ∧ sellOrders ≠ [] then
        some ((avgPrice buyOrders + avgPrice sellOrders) / 2)
      else if buyOrders ≠ [] then some (avgPrice buyOrders)
      else if sellOrders ≠ [] then some (avgPrice sellOrders)
      else none

/-- A buy order with price 1 for the C7 counterexample. -/
def c7Buy : QOrder := ⟨"b", "b", 1, 1, 0, 1, [], ⟨1, 1⟩⟩

/-- A sell order with price 0 (emitted unfiltered, see C1) for the C7
counterexample. -/
def c7Sell : QOrder := ⟨"s", "s", 0, 1, 0, 1, [], ⟨1, 1⟩⟩

/-- C7: the claim keys the fallback on side non-emptiness.  The code keys it
on the truthiness of the side averages: with a non-empty sell side averaging
`0`, the code returns the buy average `1` while the claim's precedence
requires the average of both averages, `1/2`. -/
theorem c7_counterexample :
    resolveSpot none "EUR" "BTC" none [c7Buy] [c7Sell] = some 1 ∧
    resolveSpotClaim none "EUR" "BTC" [c7Buy] [c7Sell] = some (1 / 2) ∧
    some (1 : ℚ) ≠ some (1 / 2 : ℚ) := by
  have h1 : ¬(("EUR" : String) = "USD" ∧
      (("BTC" : String) = "USDT" ∨ ("BTC" : String) = "USDC")) := by decide
  refine ⟨?_, ?_, by norm_num⟩
  · norm_num [resolveSpot, useFallbackPrice, avgPrice, c7Buy, c7Sell, h1]
  · norm_num [resolveSpotClaim, avgPrice, c7Buy, c7Sell, h1]

/-- C7 (amended): precedence is external quote; else hardcoded `1` for
USD/USDT and USD/USDC; else a fetched CoinGecko quote; else the fallback in
which a side participates only when its average price is nonzero, the
result being unresolved when both averages are zero. -/
theorem c7_spot_precedence (spotPrice geckoQuote : Option ℚ) (fiat crypto : String)
    (buyOrders sellOrders : List QOrder) :
    (∀ p, spotPrice = some p →
      resolveSpot spotPrice fiat crypto geckoQuote buyOrders sellOrders = some p) ∧
    (spotPrice = none → fiat = "USD" → (crypto = "USDT" ∨ crypto = "USDC") →
      resolveSpot spotPrice fiat crypto geckoQuote buyOrders sellOrders = some 1) ∧
    (spotPrice = none → ¬(fiat = "USD" ∧ (crypto = "USDT" ∨ crypto = "USDC")) →
      ∀ p, geckoQuote = some p →
      resolveSpot spotPrice fiat crypto geckoQuote buyOrders sellOrders = some p) ∧
    (spotPrice = none → ¬(fiat = "USD" ∧ (crypto = "USDT" ∨ crypto = "USDC")) →
      geckoQuote = none → avgPrice buyOrders ≠ 0 → avgPrice sellOrders ≠ 0 →
      resolveSpot spotPrice fiat crypto geckoQuote buyOrders sellOrders
        = some ((avgPrice buyOrders + avgPrice sellOrders) / 2)) ∧
    (spotPrice = none → ¬(fiat = "USD" ∧ (crypto = "USDT" ∨ crypto = "USDC")) →
      geckoQuote = none → avgPrice buyOrders ≠ 0 → avgPrice sellOrders = 0 →
      resolveSpot spotPrice fiat crypto geckoQuote buyOrders sellOrders
        = some (avgPrice buyOrders)) ∧
    (spotPrice = none → ¬(fiat = "USD" ∧ (crypto = "USDT" ∨ crypto = "USDC")) →
      geckoQuote = none → avgPrice buyOrders = 0 → avgPrice sellOrders ≠ 0 →
      resolveSpot spotPrice fiat crypto geckoQuote buyOrders sellOrders
        = some (avgPrice sellOrders)) ∧
    (spotPrice = none → ¬(fiat = "USD" ∧ (crypto = "USDT" ∨ crypto = "USDC")) →
      geckoQuote = none → avgPrice buyOrders = 0 → avgPrice sellOrders = 0 →
      resolveSpot spotPrice fiat crypto geckoQuote buyOrders sellOrders = none) := by
  refine ⟨?_, ?_, ?_, ?_, ?_, ?_, ?_⟩
  · rintro p rfl; rfl
  · rintro rfl rfl hc
    simp [resolveSpot, hc]
  · rintro rfl hn p rfl
    simp [resolveSpot, hn]
  · rintro rfl hn rfl hb hsl
    simp [resolveSpot, hn, useFallbackPrice, hb, hsl]
  · rintro rfl hn rfl hb hsl
    simp [resolveSpot, hn, useFallbackPrice, hb, hsl]
  · rintro rfl hn rfl hb hsl
    simp [resolveSpot, hn, useFallbackPrice, hb, hsl]
  · rintro rfl hn rfl hb hsl
    simp [resolveSpot, hn, useFallbackPrice, hb, hsl]

/-- Witness for the amended C7: the external quote `123/100` is returned
unchanged; at a concrete no-quote input the both-sides average is used; with
no orders at all the result is unresolved. -/
theorem c7_witness :
    resolveSpot (some (123 / 100)) "EUR" "BTC" none [] [] = some (123 / 100) ∧
    resolveSpot none "EUR" "BTC" none [c7Buy] [c7Buy]
        = some ((avgPrice [c7Buy] + avgPrice [c7Buy]) / 2) ∧
    resolveSpot none "EUR" "BTC" none [] [] = none := by
  refine ⟨(c7_spot_precedence (some (123 / 100)) none "EUR" "BTC" [] []).1
    (123 / 100) rfl, ?_, ?_⟩
  · exact (c7_spot_precedence none none "EUR" "BTC" [c7Buy] [c7Buy]).2.2.2.1 rfl
      (by decide) rfl (by norm_num [avgPrice, c7Buy]) (by norm_num [avgPrice, c7Buy])
  · exact (c7_spot_precedence none none "EUR" "BTC" [] []).2.2.2.2.2.2 rfl
      (by decide) rfl rfl rfl

end CryptoP2P
